import Mathlib

/-!
# Verification of the crack-detection web application's core logic

Shallow embedding of the repository's backend adapters (Roboflow
detection API, TensorFlow.js runtime, Teachable Machine classifier),
the camera hook and the live-detection loop, with theorems settling the
frozen claims about them.  Machine numbers are modelled as `ℚ`; strings
as Lean `String`; nullable references as `Option`; the asynchronous
loop and loading lifecycles as explicit transition systems over event
traces.
-/

/-- Character-list version of JavaScript `String.prototype.startsWith`:
`charsStart h n` is true when `n` is an initial segment of `h`. -/
def charsStart : List Char → List Char → Bool
  | _, [] => true
  | [], _ :: _ => false
  | h :: hs, n :: ns => h == n && charsStart hs ns

/-- Character-list version of JavaScript `String.prototype.includes`:
`charsContains h n` is true when `n` occurs contiguously inside `h`. -/
def charsContains : List Char → List Char → Bool
  | [], needle => needle.isEmpty
  | c :: t, needle => charsStart (c :: t) needle || charsContains t needle

/-- `strContains hay needle` models JavaScript `hay.includes(needle)`. -/
def strContains (hay needle : String) : Bool :=
  charsContains hay.data needle.data

/-- `strToLower s` models JavaScript `s.toLowerCase()`: each character
lowered (ASCII-faithful, which covers the class labels involved). -/
def strToLower (s : String) : String :=
  ⟨s.data.map Char.toLower⟩

/-- `charsSuffix h n` is true when `n` is a final segment of `h`. -/
def charsSuffix (h n : List Char) : Bool :=
  charsStart h.reverse n.reverse

/-- `strEndsWith s pat` models JavaScript `s.endsWith(pat)`. -/
def strEndsWith (s pat : String) : Bool :=
  charsSuffix s.data pat.data

/-- JavaScript `x || d` for an optional number, where `0` is falsy:
the default `d` is taken when `x` is `undefined` or `0`.
Embeds the `(… .threshold || 0.5)` pattern of the source. -/
def jsOrDefault (x : Option ℚ) (d : ℚ) : ℚ :=
  match x with
  | none => d
  | some v => if v = 0 then d else v

/-! ## Roboflow detection-API adapter (src/unnamed/part_000) -/

/-- `RoboflowConfig` from part_000: `threshold` is optional. -/
structure RoboflowConfig where
  apiKey : String
  modelEndpoint : String
  threshold : Option ℚ
deriving DecidableEq

/-- `RoboflowPrediction` from part_000. -/
structure RoboflowPrediction where
  x : ℚ
  y : ℚ
  width : ℚ
  height : ℚ
  confidence : ℚ
  «class» : String
  class_id : ℤ
  points : Option (List (ℚ × ℚ))
deriving DecidableEq

/-- `RoboflowResponse` from part_000 (`image` is its width×height). -/
structure RoboflowResponse where
  predictions : List RoboflowPrediction
  image : ℚ × ℚ
deriving DecidableEq

/-- `CrackDetectionResult` from part_000. -/
structure CrackDetectionResult where
  hasCracks : Bool
  predictions : List RoboflowPrediction
  confidence : ℚ
  totalCracks : ℕ
deriving DecidableEq

/-- The crack-class filter of `detectCracks` (part_000 lines 79–81):
`prediction.class.toLowerCase().includes('crack')`. -/
def isCrackClass (p : RoboflowPrediction) : Bool :=
  strContains (strToLower p.«class») "crack"

/-- JavaScript `Math.max(...l)` over a non-empty list (the source guards
the empty case with `hasCracks`, so the default `d` is never reached
there). -/
def listMaxD (l : List ℚ) (d : ℚ) : ℚ :=
  match l with
  | [] => d
  | x :: xs => xs.foldl max x

/-- The response-processing tail of `RoboflowService.detectCracks`
(part_000 lines 79–93): filter to crack classes, aggregate the maximum
confidence (0 when none match), count, and flag.  Total — an empty
filtered list is handled, not thrown. -/
def detectCracksResult (result : RoboflowResponse) : CrackDetectionResult :=
  let crackPredictions := result.predictions.filter isCrackClass
  let hasCracks : Bool := crackPredictions.length > 0
  let confidence : ℚ :=
    if hasCracks then listMaxD (crackPredictions.map (·.confidence)) 0 else 0
  { hasCracks := hasCracks
    predictions := crackPredictions
    confidence := confidence
    totalCracks := crackPredictions.length }

/-- `RoboflowService`'s single private field `config` (part_000 line 34). -/
structure RoboflowServiceState where
  config : Option RoboflowConfig
deriving DecidableEq

/-- `RoboflowService.setConfig` (part_000 lines 36–38): stores the
config unconditionally — the body is `this.config = config;` with no
validation and no network call. -/
def RoboflowService.setConfig (config : RoboflowConfig)
    (_s : RoboflowServiceState) : RoboflowServiceState :=
  { config := some config }

/-- `RoboflowService.isConfigured` (part_000 lines 100–104):
`config !== null && !!config.apiKey && !!config.modelEndpoint`
(a string is truthy exactly when non-empty). -/
def RoboflowService.isConfigured (s : RoboflowServiceState) : Bool :=
  match s.config with
  | none => false
  | some c => (c.apiKey ≠ "" : Bool) && (c.modelEndpoint ≠ "" : Bool)

/-- The `confidence` query parameter of the detection request
(part_000 line 62): `(this.config.threshold || 0.5)`. -/
def RoboflowService.requestConfidence (c : RoboflowConfig) : ℚ :=
  jsOrDefault c.threshold (1/2)

/-! ### Auxiliary lemmas about `listMaxD` -/

lemma le_foldl_max_init (xs : List ℚ) (a : ℚ) : a ≤ xs.foldl max a := by
  induction xs generalizing a with
  | nil => exact le_refl a
  | cons x xs ih =>
      simp only [List.foldl]
      exact le_trans (le_max_left a x) (ih (max a x))

lemma mem_le_foldl_max (xs : List ℚ) : ∀ (a x : ℚ), x ∈ xs → x ≤ xs.foldl max a := by
  induction xs with
  | nil => intro a x hx; cases hx
  | cons y ys ih =>
      intro a x hx
      simp only [List.foldl]
      rcases List.mem_cons.mp hx with h | h
      · subst h
        exact le_trans (le_max_right a x) (le_foldl_max_init ys (max a x))
      · exact ih (max a y) x h

lemma foldl_max_mem (xs : List ℚ) (a : ℚ) :
    xs.foldl max a = a ∨ xs.foldl max a ∈ xs := by
  induction xs generalizing a with
  | nil => exact Or.inl rfl
  | cons x xs ih =>
      simp only [List.foldl]
      rcases ih (max a x) with h | h
      · rcases max_choice a x with hm | hm
        · exact Or.inl (h.trans hm)
        · exact Or.inr (List.mem_cons.mpr (Or.inl (h.trans hm)))
      · exact Or.inr (List.mem_cons.mpr (Or.inr h))

lemma le_listMaxD (l : List ℚ) (d x : ℚ) (hx : x ∈ l) : x ≤ listMaxD l d := by
  cases l with
  | nil => cases hx
  | cons y ys =>
      simp only [listMaxD]
      rcases List.mem_cons.mp hx with h | h
      · subst h; exact le_foldl_max_init ys x
      · exact mem_le_foldl_max ys y x h

lemma listMaxD_mem (l : List ℚ) (d : ℚ) (h : l ≠ []) : listMaxD l d ∈ l := by
  cases l with
  | nil => exact absurd rfl h
  | cons y ys =>
      simp only [listMaxD]
      rcases foldl_max_mem ys y with h' | h'
      · rw [h']; exact List.mem_cons_self y ys
      · exact List.mem_cons.mpr (Or.inr h')

/-! ## TensorFlow.js runtime adapter (src/src/services/tensorflowService.ts) -/

/-- `TensorFlowConfig` from tensorflowService.ts: `inputShape` is
`[batch, height, width, channels]`; `threshold` is optional. -/
structure TensorFlowConfig where
  modelUrl : String
  inputShape : ℕ × ℕ × ℕ × ℕ
  threshold : Option ℚ
deriving DecidableEq

/-- The two values of `CrackPrediction.classification`. -/
inductive Classification where
  | Crack
  | NoCrack
deriving DecidableEq

/-- `CrackPrediction` from tensorflowService.ts. -/
structure CrackPrediction where
  probability : ℚ
  classification : Classification
  confidence : ℚ
deriving DecidableEq

/-- The decision tail of `TensorFlowService.predict` (tensorflowService.ts
lines 88–98), applied to the scalar output `probability` of the forward
pass: `threshold = config.threshold || 0.5`,
`classification = probability > threshold ? 'Crack' : 'No Crack'`,
`confidence = classification === 'Crack' ? probability : 1 - probability`. -/
def TensorFlowService.classify (config : TensorFlowConfig) (probability : ℚ) :
    CrackPrediction :=
  let threshold := jsOrDefault config.threshold (1/2)
  let classification : Classification :=
    if probability > threshold then .Crack else .NoCrack
  let confidence : ℚ :=
    if classification = .Crack then probability else 1 - probability
  { probability := probability
    classification := classification
    confidence := confidence }

/-- The mutable fields of `TensorFlowService` (tensorflowService.ts
lines 22–24): `model`, `isLoading`, `config`.  The model artifact itself
is opaque, so presence is what is modelled. -/
structure TFState where
  model : Bool
  isLoading : Bool
  config : Option TensorFlowConfig
deriving DecidableEq

/-- Fresh `TensorFlowService`: no model, not loading, no config. -/
def TFState.init : TFState :=
  { model := false, isLoading := false, config := none }

/-- Events of the `loadModel` lifecycle (tensorflowService.ts lines
26–51): the synchronous head of `loadModel` (guard on `isLoading`, then
`isLoading = true; config = config`), and the resolution of
`tf.loadLayersModel` (on success `model` is set; on failure it is not;
`finally` clears `isLoading` either way). -/
inductive TFEvent where
  | startLoad (config : TensorFlowConfig)
  | finishLoad (ok : Bool)
deriving DecidableEq

/-- One lifecycle step of `TensorFlowService`. -/
def TFState.step (s : TFState) : TFEvent → TFState
  | .startLoad config =>
      if s.isLoading then s
      else { s with isLoading := true, config := some config }
  | .finishLoad ok =>
      if s.isLoading then
        { s with model := s.model || ok, isLoading := false }
      else s

/-- The state of a `TensorFlowService` after a trace of lifecycle events. -/
def TFState.run (evs : List TFEvent) : TFState :=
  evs.foldl TFState.step TFState.init

/-- `TensorFlowService.isModelLoaded` (tensorflowService.ts lines
109–111): `this.model !== null`. -/
def TensorFlowService.isModelLoaded (s : TFState) : Bool :=
  s.model

/-- The mutable fields of `CrackDetectionService` (tensorflowService.ts
lines 143–144): `model` and `isLoading`. -/
structure CDState where
  model : Bool
  isLoading : Bool
deriving DecidableEq

/-- Fresh `CrackDetectionService`: no model, not loading. -/
def CDState.init : CDState :=
  { model := false, isLoading := false }

/-- `CrackDetectionService.isModelLoaded` (tensorflowService.ts lines
245–247): `this.model !== null || !this.isLoading`. -/
def CrackDetectionService.isModelLoaded (s : CDState) : Bool :=
  s.model || !s.isLoading

/-! ### Tensor allocation model for `predict` (claim C6)

`predict` (tensorflowService.ts lines 67–107) allocates tensors through
the tfjs chain in `preprocessImage` (lines 53–65) plus the forward-pass
output, and its `finally` block disposes exactly `imageTensor` and
`predictionTensor`.  Allocation is modelled by an environment of live
tensor ids. -/

/-- Tensor environment: ids already handed out, and the live
(allocated, not yet disposed) ids. -/
structure TensorEnv where
  nextId : ℕ
  live : List ℕ
deriving DecidableEq

/-- Allocate one tensor: returns its id and the grown environment. -/
def TensorEnv.alloc (e : TensorEnv) : ℕ × TensorEnv :=
  (e.nextId, { nextId := e.nextId + 1, live := e.live ++ [e.nextId] })

/-- `tensor.dispose()`: the id leaves the live set. -/
def TensorEnv.dispose (id : ℕ) (e : TensorEnv) : TensorEnv :=
  { e with live := e.live.filter (fun t => t ≠ id) }

/-- Allocations performed by `TensorFlowService.preprocessImage`
(tensorflowService.ts lines 60–64): the chain
`tf.browser.fromPixels(..).resizeBilinear(..).toFloat().div(tf.scalar(255)).expandDims(0)`
creates six tensors (fromPixels, resize, toFloat, the scalar, div,
expandDims); only the last is returned. -/
def TensorFlowService.preprocessImage (e : TensorEnv) : ℕ × TensorEnv :=
  let (_fromPixels, e) := e.alloc
  let (_resized, e) := e.alloc
  let (_floated, e) := e.alloc
  let (_scalar255, e) := e.alloc
  let (_divided, e) := e.alloc
  let (expanded, e) := e.alloc
  (expanded, e)

/-- Tensor bookkeeping of one successful `TensorFlowService.predict`
call (tensorflowService.ts lines 78–106): preprocess, one forward-pass
output tensor, then the `finally` block disposes `imageTensor` and
`predictionTensor` only. -/
def TensorFlowService.predictTensors (e : TensorEnv) : TensorEnv :=
  let (imageTensor, e) := TensorFlowService.preprocessImage e
  let (predictionTensor, e) := e.alloc
  let e := TensorEnv.dispose imageTensor e
  let e := TensorEnv.dispose predictionTensor e
  e

/-! ## Teachable Machine classifier adapter (src/unnamed/part_001) -/

/-- `TeachableMachineConfig` from part_001: `metadataUrl` is optional. -/
structure TeachableMachineConfig where
  modelUrl : String
  metadataUrl : Option String
deriving DecidableEq

/-- The model-URL construction inside `TeachableMachineService.loadModel`
(part_001 lines 38–40): `modelUrl.endsWith('/') ? modelUrl + 'model.json'
: modelUrl + '/model.json'`. -/
def TeachableMachineService.resolveModelURL (config : TeachableMachineConfig) :
    String :=
  if strEndsWith config.modelUrl "/" then config.modelUrl ++ "model.json"
  else config.modelUrl ++ "/model.json"

/-- The metadata-URL construction inside `TeachableMachineService.loadModel`
(part_001 lines 41–44): `config.metadataUrl || (…)` — an absent or
empty (falsy) `metadataUrl` falls back to the slash-aware append of
`metadata.json` to `modelUrl`. -/
def TeachableMachineService.resolveMetadataURL
    (config : TeachableMachineConfig) : String :=
  let fallback :=
    if strEndsWith config.modelUrl "/" then config.modelUrl ++ "metadata.json"
    else config.modelUrl ++ "/metadata.json"
  match config.metadataUrl with
  | none => fallback
  | some m => if m = "" then fallback else m

/-! ## Camera hook (src/src/hooks/useCamera.ts) -/

/-- One `MediaStreamTrack` of the stream obtained from
`getUserMedia`: only whether `track.stop()` has been called matters. -/
structure MediaTrack where
  stopped : Bool
deriving DecidableEq

/-- Mark as stopped the tracks of the owned collection whose position
is listed in `idxs` — `stream.getTracks().forEach(track => track.stop())`
over the tracks the current stream references. -/
def stopTracksFrom : List MediaTrack → List ℕ → ℕ → List MediaTrack
  | [], _, _ => []
  | t :: ts, idxs, i =>
      (if i ∈ idxs then { t with stopped := true } else t)
        :: stopTracksFrom ts idxs (i + 1)

/-- The mutable state of `useCamera` relevant to `stopCamera`
(useCamera.ts lines 10–12): every track the hook has ever obtained
(owned heap), the indices the current `streamRef` references (`none`
models `streamRef.current === null`), whether `videoRef.current.srcObject`
is non-null, and `isActive`. -/
structure CameraState where
  tracks : List MediaTrack
  streamTracks : Option (List ℕ)
  srcObject : Bool
  isActive : Bool
deriving DecidableEq

/-- `stopCamera` (useCamera.ts lines 81–93): when `streamRef.current`
is non-null, stop each of its tracks and null the reference; null the
video element's `srcObject`; set `isActive` to `false`.  Total — it
never throws. -/
def useCamera.stopCamera (s : CameraState) : CameraState :=
  let s1 :=
    match s.streamTracks with
    | some idxs =>
        { s with tracks := stopTracksFrom s.tracks idxs 0, streamTracks := none }
    | none => s
  { s1 with srcObject := false, isActive := false }

/-! ## Live-detection loop (src/unnamed/part_003, CrackDetector)

The `runDetection` effect (part_003 lines 354–398) registers one
`requestAnimationFrame` callback; the callback dispatches `predict` and
only after the awaited call resolves (and `setPredictions` ran) does it
register the next callback (line 388).  `handleStopCamera`
(lines 405–410) clears `predictions` and, through the effect cleanup,
cancels a pending callback; it cannot reach the closure-captured
`isDetecting` of an already-running callback, and a call already in
flight carries no generation counter, so its resolution still applies
`setPredictions`.

`LoopState` below models a single mounted run of that effect; it is
used for the stale-result claim, whose trace stays within one run.  A
session, however, spans effect re-mounts: the effect depends on
`isPaused` (line 398), so pause/resume unmounts and remounts it, and a
cleanup that runs while the callback is suspended at the `await`
cancels an id that has already fired — the stale closure re-registers
on resolution and keeps running.  `SessState` further below models the
whole session with its set of loop instances. -/

/-- `Prediction` from the Teachable Machine service (part_001 lines
8–11), the element type of the `predictions` state. -/
structure Prediction where
  className : String
  probability : ℚ
deriving DecidableEq

/-- State of one mounted `runDetection` effect: whether an animation
frame callback is registered, how many `predict` calls are unresolved,
how many were ever dispatched, the closure-captured `isDetecting`
guard, and the `predictions` React state. -/
structure LoopState where
  pending : Bool
  inFlight : ℕ
  dispatched : ℕ
  detecting : Bool
  predictions : List Prediction
deriving DecidableEq

/-- Effect mount during an active detecting session: one callback
registered (part_003 line 391), nothing in flight, `predictions`
cleared by the preceding start. -/
def LoopState.start : LoopState :=
  { pending := true, inFlight := 0, dispatched := 0,
    detecting := true, predictions := [] }

/-- Events acting on the loop: a display-refresh tick firing the
registered callback, the resolution of the in-flight `predict` call
with its prediction list, and `handleStopCamera`. -/
inductive LoopEvent where
  | tick
  | resolve (ps : List Prediction)
  | stop
deriving DecidableEq

/-- One loop transition.
`tick`: a registered callback runs; under the guard
`videoRef.current && isDetecting` it dispatches `predict` and suspends
at the `await` (the next callback is registered only upon resolution);
without the guard it re-registers at once.  A tick with no registered
callback does nothing.
`resolve ps`: the awaited `predict` returns; `setPredictions(ps)` is
applied unconditionally (no staleness gate in the source) and the next
callback is registered.
`stop` (`handleStopCamera` plus the effect cleanup): `predictions`
is cleared and a pending callback is cancelled; the in-flight call and
the running closure's captured `detecting` are untouched. -/
def LoopState.step (s : LoopState) : LoopEvent → LoopState
  | .tick =>
      if s.pending then
        if s.detecting then
          { s with pending := false, inFlight := s.inFlight + 1,
                   dispatched := s.dispatched + 1 }
        else { s with pending := true }
      else s
  | .resolve ps =>
      if s.inFlight > 0 then
        { s with inFlight := s.inFlight - 1, predictions := ps,
                 pending := true }
      else s
  | .stop =>
      { s with predictions := [], pending := false }

/-- Loop state after a trace of events from the mounted effect. -/
def LoopState.run (evs : List LoopEvent) : LoopState :=
  evs.foldl LoopState.step LoopState.start

/-! ## Session-level model of the detection loop

One live-camera session (start → … → stop) spans re-mounts of the
`runDetection` effect: its dependency list (part_003 line 398)
includes `isPaused`, so `handlePauseResume` (lines 412–419) unmounts
the running effect and, on resume, mounts a fresh one with its own
closure.  The cleanup (lines 393–397) calls `cancelAnimationFrame` on
the id the instance last registered; when the instance is suspended at
`await predict` that id has already fired, the cancel is a no-op, and
upon resolution line 388 registers a new callback that nothing ever
cancels — the instance keeps looping.  The session therefore owns a
*list* of loop instances. -/

/-- One closure instance of the `runDetection` loop: whether it has an
animation-frame callback registered, how many of its `predict` calls
are unresolved, and its closure-captured
`videoRef.current && isDetecting` guard. -/
structure LoopInst where
  pending : Bool
  inFlight : ℕ
  detecting : Bool
deriving DecidableEq

/-- A freshly mounted instance: callback registered (part_003 line
391), nothing in flight, guard captured true during an active
detecting session. -/
def LoopInst.fresh : LoopInst :=
  { pending := true, inFlight := 0, detecting := true }

/-- One display-refresh firing of an instance: a registered callback
runs; under the guard it dispatches `predict` and suspends at the
`await` (no callback registered until resolution); without the guard
it re-registers at once; an instance with no registered callback is
untouched.  Returns the instance and how many calls it dispatched. -/
def tickInst (inst : LoopInst) : LoopInst × ℕ :=
  if inst.pending then
    if inst.detecting then
      ({ inst with pending := false, inFlight := inst.inFlight + 1 }, 1)
    else ({ inst with pending := true }, 0)
  else (inst, 0)

/-- Session state: all loop instances ever mounted, which one is the
currently mounted effect run (`none` while paused or stopped), the
total `predict` calls dispatched, the `predictions` React state, and
whether the camera session is active. -/
structure SessState where
  insts : List LoopInst
  mounted : Option ℕ
  dispatched : ℕ
  predictions : List Prediction
  active : Bool
deriving DecidableEq

/-- Session begin: camera started, detection on, one instance mounted. -/
def SessState.start : SessState :=
  { insts := [LoopInst.fresh], mounted := some 0, dispatched := 0,
    predictions := [], active := true }

/-- Session events: a display-refresh tick (fires every registered
callback), resolution of instance `i`'s in-flight call with its
prediction list, pause, resume, and `handleStopCamera`. -/
inductive SessEvent where
  | tick
  | resolve (i : ℕ) (ps : List Prediction)
  | pause
  | resume
  | stop
deriving DecidableEq

/-- Effect cleanup of the mounted run (part_003 lines 393–397):
`cancelAnimationFrame` removes the instance's registered callback if
one is registered — if the instance is mid-`await`, nothing is
registered and nothing is cancelled — and the run is unmounted. -/
def cancelMounted (s : SessState) : SessState :=
  match s.mounted with
  | some i =>
      match s.insts.get? i with
      | some inst =>
          { s with insts := s.insts.set i { inst with pending := false },
                   mounted := none }
      | none => { s with mounted := none }
  | none => s

/-- One session transition.
`tick`: all registered callbacks fire (each per `tickInst`).
`resolve i ps`: instance `i`'s awaited `predict` returns;
`setPredictions(ps)` is applied unconditionally and the instance
re-registers (line 388) — even if its run was cleaned up, the
registration escapes the cancel.
`pause`: cleanup of the mounted run; the new effect body returns early
(`isPaused`), mounting nothing.
`resume`: the effect re-runs and mounts a fresh instance (only while
the camera session is active).
`stop` (`handleStopCamera`): cleanup of the mounted run, `predictions`
cleared, session inactive (later effect runs return early). -/
def SessState.step (s : SessState) : SessEvent → SessState
  | .tick =>
      let ticked := s.insts.map tickInst
      { s with insts := ticked.map Prod.fst,
               dispatched := s.dispatched + (ticked.map Prod.snd).sum }
  | .resolve i ps =>
      match s.insts.get? i with
      | some inst =>
          if inst.inFlight > 0 then
            { s with
              insts := s.insts.set i
                { inst with inFlight := inst.inFlight - 1, pending := true },
              predictions := ps }
          else s
      | none => s
  | .pause => cancelMounted s
  | .resume =>
      match s.mounted with
      | none =>
          if s.active then
            { s with insts := s.insts ++ [LoopInst.fresh],
                     mounted := some s.insts.length }
          else s
      | some _ => s
  | .stop => { cancelMounted s with predictions := [], active := false }

/-- Session state after a trace of events from session begin. -/
def SessState.run (evs : List SessEvent) : SessState :=
  evs.foldl SessState.step SessState.start

/-- Number of `predict` calls currently in flight across the session. -/
def SessState.inFlightTotal (s : SessState) : ℕ :=
  (s.insts.map LoopInst.inFlight).sum

/-- `n` consecutive display-refresh ticks. -/
def SessState.ticksRun (n : ℕ) (s : SessState) : SessState :=
  match n with
  | 0 => s
  | n + 1 => SessState.ticksRun n (s.step SessEvent.tick)

/-! ## Invariants of the session instances and of the load lifecycle -/

/-- Per-instance invariant: an instance never has more than one call
unresolved, and while one is unresolved it has no callback registered
(the next registration happens only at resolution). -/
def InstInv (inst : LoopInst) : Prop :=
  inst.inFlight ≤ 1 ∧ (inst.inFlight = 1 → inst.pending = false)

lemma instInv_tickInst (inst : LoopInst) (h : InstInv inst) :
    InstInv (tickInst inst).1 := by
  obtain ⟨h1, h2⟩ := h
  by_cases hp : inst.pending
  · by_cases hd : inst.detecting
    · have h0 : inst.inFlight = 0 := by
        rcases Nat.lt_or_ge inst.inFlight 1 with h | h
        · omega
        · have he : inst.inFlight = 1 := by omega
          exact absurd (h2 he) (by simp [hp])
      simp [tickInst, hp, hd, InstInv, h0]
    · have hne : inst.inFlight ≠ 1 := fun h' => by simp [h2 h'] at hp
      simp [tickInst, hp, hd, InstInv]
      exact ⟨h1, fun h' => absurd h' hne⟩
  · have hs : (tickInst inst).1 = inst := by simp [tickInst, hp]
    rw [hs]; exact ⟨h1, h2⟩

lemma instInv_all_step (s : SessState) (e : SessEvent)
    (h : ∀ inst ∈ s.insts, InstInv inst) :
    ∀ inst ∈ (s.step e).insts, InstInv inst := by
  cases e with
  | tick =>
      intro inst' hmem
      simp only [SessState.step, List.map_map] at hmem
      obtain ⟨inst, hin, heq⟩ := List.mem_map.mp hmem
      rw [← heq]
      exact instInv_tickInst inst (h inst hin)
  | resolve i ps =>
      intro inst' hmem
      simp only [SessState.step] at hmem
      split at hmem
      · next inst hg =>
          split at hmem
          · rcases List.mem_or_eq_of_mem_set hmem with hold | hnew
            · exact h inst' hold
            · obtain ⟨hf1, _⟩ := h inst (List.get?_mem hg)
              rw [hnew]
              refine ⟨?_, ?_⟩
              · show inst.inFlight - 1 ≤ 1
                omega
              · intro h'
                have h'' : inst.inFlight - 1 = 1 := h'
                exact absurd h'' (by omega)
          · exact h inst' hmem
      · exact h inst' hmem
  | pause =>
      intro inst' hmem
      simp only [SessState.step, cancelMounted] at hmem
      split at hmem
      · split at hmem
        · next inst hg =>
            rcases List.mem_or_eq_of_mem_set hmem with hold | hnew
            · exact h inst' hold
            · obtain ⟨hf1, _⟩ := h inst (List.get?_mem hg)
              rw [hnew]
              exact ⟨hf1, fun _ => rfl⟩
        · exact h inst' hmem
      · exact h inst' hmem
  | resume =>
      intro inst' hmem
      simp only [SessState.step] at hmem
      split at hmem
      · split at hmem
        · rcases List.mem_append.mp hmem with hold | hnew
          · exact h inst' hold
          · rw [List.mem_singleton.mp hnew]
            exact ⟨by simp [LoopInst.fresh], by simp [LoopInst.fresh]⟩
        · exact h inst' hmem
      · exact h inst' hmem
  | stop =>
      intro inst' hmem
      simp only [SessState.step, cancelMounted] at hmem
      split at hmem
      · split at hmem
        · next inst hg =>
            rcases List.mem_or_eq_of_mem_set hmem with hold | hnew
            · exact h inst' hold
            · obtain ⟨hf1, _⟩ := h inst (List.get?_mem hg)
              rw [hnew]
              exact ⟨hf1, fun _ => rfl⟩
        · exact h inst' hmem
      · exact h inst' hmem

lemma instInv_all_foldl (evs : List SessEvent) :
    ∀ s : SessState, (∀ inst ∈ s.insts, InstInv inst) →
      ∀ inst ∈ (evs.foldl SessState.step s).insts, InstInv inst := by
  induction evs with
  | nil => intro s h; exact h
  | cons e evs ih => intro s h; exact ih (s.step e) (instInv_all_step s e h)

lemma instInv_all_run (evs : List SessEvent) :
    ∀ inst ∈ (SessState.run evs).insts, InstInv inst := by
  refine instInv_all_foldl evs SessState.start ?_
  intro inst hmem
  rw [List.mem_singleton.mp hmem]
  exact ⟨by simp [LoopInst.fresh], by simp [LoopInst.fresh]⟩

lemma length_step_no_resume (s : SessState) (e : SessEvent)
    (he : e ≠ SessEvent.resume) :
    (s.step e).insts.length = s.insts.length := by
  cases e with
  | tick => simp [SessState.step]
  | resolve i ps =>
      simp only [SessState.step]
      split
      · split
        · simp
        · rfl
      · rfl
  | pause =>
      simp only [SessState.step, cancelMounted]
      split
      · split
        · simp
        · rfl
      · rfl
  | resume => exact absurd rfl he
  | stop =>
      simp only [SessState.step, cancelMounted]
      split
      · split
        · simp
        · rfl
      · rfl

lemma length_foldl_no_resume (evs : List SessEvent) :
    ∀ s : SessState, (∀ e ∈ evs, e ≠ SessEvent.resume) →
      (evs.foldl SessState.step s).insts.length = s.insts.length := by
  induction evs with
  | nil => intro s _; rfl
  | cons e evs ih =>
      intro s h
      rw [List.foldl_cons,
        ih (s.step e) (fun e' he' => h e' (List.mem_cons.mpr (Or.inr he'))),
        length_step_no_resume s e (h e (List.mem_cons_self e evs))]

lemma map_tickInst_no_pending (l : List LoopInst)
    (h : ∀ inst ∈ l, inst.pending = false) :
    l.map tickInst = l.map (fun inst => (inst, 0)) := by
  induction l with
  | nil => rfl
  | cons a t ih =>
      have ha : tickInst a = (a, 0) := by
        simp [tickInst, h a (List.mem_cons_self a t)]
      simp only [List.map_cons, ha]
      rw [ih (fun inst hin => h inst (List.mem_cons.mpr (Or.inr hin)))]

lemma map_pair_zero_facts (l : List LoopInst) :
    (l.map (fun inst => (inst, (0 : ℕ)))).map Prod.fst = l ∧
    ((l.map (fun inst => (inst, (0 : ℕ)))).map Prod.snd).sum = 0 := by
  induction l with
  | nil => exact ⟨rfl, rfl⟩
  | cons a t ih =>
      simp only [List.map_cons, List.sum_cons]
      exact ⟨by rw [ih.1], by rw [ih.2]⟩

lemma step_tick_fixpoint (s : SessState)
    (h : ∀ inst ∈ s.insts, inst.pending = false) :
    s.step SessEvent.tick = s := by
  obtain ⟨insts, mounted, dispatched, predictions, active⟩ := s
  simp only [SessState.step]
  rw [map_tickInst_no_pending insts h, (map_pair_zero_facts insts).1,
    (map_pair_zero_facts insts).2]
  simp

lemma ticksRun_fixpoint (n : ℕ) (s : SessState)
    (h : s.step SessEvent.tick = s) : SessState.ticksRun n s = s := by
  induction n with
  | zero => rfl
  | succ n ih => simp [SessState.ticksRun, h, ih]

/-- Lifecycle invariant of `TensorFlowService`: a load in progress and
a present model each imply the config was stored. -/
def TFInv (s : TFState) : Prop :=
  (s.isLoading = true → s.config.isSome = true) ∧
  (s.model = true → s.config.isSome = true)

lemma tfInv_step (s : TFState) (e : TFEvent) (h : TFInv s) :
    TFInv (s.step e) := by
  obtain ⟨h1, h2⟩ := h
  cases e with
  | startLoad config =>
      by_cases hl : s.isLoading
      · have hs : s.step (TFEvent.startLoad config) = s := by
          simp [TFState.step, hl]
        rw [hs]; exact ⟨h1, h2⟩
      · simp [TFState.step, hl, TFInv]
  | finishLoad ok =>
      by_cases hl : s.isLoading
      · simp [TFState.step, hl, TFInv]
        intro hm
        exact h1 hl
      · have hs : s.step (TFEvent.finishLoad ok) = s := by
          simp [TFState.step, hl]
        rw [hs]; exact ⟨h1, h2⟩

lemma tfInv_foldl (evs : List TFEvent) :
    ∀ s : TFState, TFInv s → TFInv (evs.foldl TFState.step s) := by
  induction evs with
  | nil => intro s h; exact h
  | cons e evs ih => intro s h; exact ih (s.step e) (tfInv_step s e h)

lemma tf_step_model (s : TFState) (e : TFEvent)
    (h : (s.step e).model = true) :
    s.model = true ∨ e = TFEvent.finishLoad true := by
  cases e with
  | startLoad config =>
      by_cases hl : s.isLoading
      · simp [TFState.step, hl] at h; exact Or.inl h
      · simp [TFState.step, hl] at h; exact Or.inl h
  | finishLoad ok =>
      by_cases hl : s.isLoading
      · simp [TFState.step, hl, Bool.or_eq_true] at h
        rcases h with h | h
        · exact Or.inl h
        · exact Or.inr (by rw [h])
      · simp [TFState.step, hl] at h; exact Or.inl h

lemma tf_model_source (evs : List TFEvent) :
    ∀ s : TFState, (evs.foldl TFState.step s).model = true →
      s.model = true ∨ ∃ e ∈ evs, e = TFEvent.finishLoad true := by
  induction evs with
  | nil => intro s h; exact Or.inl h
  | cons e evs ih =>
      intro s h
      rcases ih (s.step e) h with h' | ⟨e', he', hfin⟩
      · rcases tf_step_model s e h' with h'' | h''
        · exact Or.inl h''
        · exact Or.inr ⟨e, List.mem_cons_self e evs, h''⟩
      · exact Or.inr ⟨e', List.mem_cons.mpr (Or.inr he'), hfin⟩

/-! ## Theorems settling the claims -/

/-- C1: for every detection-API response, `detectCracksResult` keeps
exactly the predictions whose class contains "crack" case-insensitively
in source order, counts them in `totalCracks`, sets `hasCracks` iff some
matched, and sets `confidence` to the maximum matching confidence (an
element of the filtered list and an upper bound of it) or `0` when none
matched; the function is total, so a zero-match response is the
negative case, not an error. -/
theorem detectCracks_filter_and_max (resp : RoboflowResponse) :
    (detectCracksResult resp).predictions
      = resp.predictions.filter isCrackClass ∧
    (detectCracksResult resp).totalCracks
      = (detectCracksResult resp).predictions.length ∧
    ((detectCracksResult resp).hasCracks = true ↔
      (detectCracksResult resp).predictions ≠ []) ∧
    ((detectCracksResult resp).predictions = [] →
      (detectCracksResult resp).confidence = 0) ∧
    ((detectCracksResult resp).predictions ≠ [] →
      (detectCracksResult resp).confidence ∈
        (detectCracksResult resp).predictions.map RoboflowPrediction.confidence) ∧
    ∀ p ∈ (detectCracksResult resp).predictions,
      p.confidence ≤ (detectCracksResult resp).confidence := by
  have hp : (detectCracksResult resp).predictions
      = resp.predictions.filter isCrackClass := rfl
  have hh : (detectCracksResult resp).hasCracks
      = decide (0 < (resp.predictions.filter isCrackClass).length) := rfl
  have hc : (detectCracksResult resp).confidence
      = if 0 < (resp.predictions.filter isCrackClass).length
        then listMaxD
          ((resp.predictions.filter isCrackClass).map (·.confidence)) 0
        else 0 := by
    simp [detectCracksResult]
  refine ⟨hp, rfl, ?_, ?_, ?_, ?_⟩
  · rw [hh, hp]
    simp [List.length_pos]
  · intro h
    rw [hp] at h
    rw [hc, h]
    simp
  · intro h
    rw [hp] at h
    rw [hc, if_pos (List.length_pos.mpr h), hp]
    exact listMaxD_mem _ 0 (by simp [h])
  · intro p hmem
    rw [hp] at hmem
    have hne : resp.predictions.filter isCrackClass ≠ [] :=
      List.ne_nil_of_mem hmem
    rw [hc, if_pos (List.length_pos.mpr hne)]
    exact le_listMaxD _ 0 p.confidence
      (List.mem_map_of_mem RoboflowPrediction.confidence hmem)

/-- C2 counterexample: within one live-camera session, pausing while a
`predict` call is in flight and resuming puts **two** calls in flight
at once — the claim's "at most one inference call is in flight at any
time" fails on the realizable trace tick (dispatch), pause (cleanup is
a no-op: the callback id already fired), resume (a second loop
mounts), tick (second dispatch).  Continuing the trace, while the
first call stays unresolved (instance 0 still shows one call in
flight at the end), the session has dispatched 3 calls against 1
after the first tick — two new dispatches during one unresolved call,
against the claim's "at most 1". -/
theorem session_concurrent_inflight_counterexample :
    1 < SessState.inFlightTotal (SessState.run
      [SessEvent.tick, SessEvent.pause, SessEvent.resume,
       SessEvent.tick]) ∧
    (SessState.run [SessEvent.tick]).dispatched = 1 ∧
    (SessState.run [SessEvent.tick, SessEvent.pause, SessEvent.resume,
      SessEvent.tick, SessEvent.resolve 1 [],
      SessEvent.tick]).dispatched = 3 ∧
    ((SessState.run [SessEvent.tick, SessEvent.pause, SessEvent.resume,
      SessEvent.tick, SessEvent.resolve 1 [],
      SessEvent.tick]).insts.map LoopInst.inFlight).get? 0 = some 1 := by
  decide

/-- C2 (amended): the single-flight guarantee holds per mounted run of
the detection effect, not per session.  Every instance ever mounted
has at most one call unresolved, and has no callback registered while
it does (the next registration happens only at resolution, so the
would-be frame is dropped, never queued); consequently, on any trace
without pause/resume re-mounts, the session has at most one call in
flight, and while one is unresolved `n` further display-refresh ticks
dispatch nothing new (at most 1 as claimed).  Pause/resume re-mounts
break the session-wide bound (see the counterexample). -/
theorem session_single_flight_per_mounted_run (evs : List SessEvent)
    (n : ℕ) :
    (∀ inst ∈ (SessState.run evs).insts,
      inst.inFlight ≤ 1 ∧ (inst.inFlight = 1 → inst.pending = false)) ∧
    ((∀ e ∈ evs, e ≠ SessEvent.pause ∧ e ≠ SessEvent.resume) →
      SessState.inFlightTotal (SessState.run evs) ≤ 1 ∧
      (SessState.inFlightTotal (SessState.run evs) = 1 →
        (SessState.ticksRun n (SessState.run evs)).dispatched
          = (SessState.run evs).dispatched)) := by
  constructor
  · exact instInv_all_run evs
  · intro hpr
    have hlen : (SessState.run evs).insts.length = 1 :=
      length_foldl_no_resume evs SessState.start
        (fun e he => (hpr e he).2)
    obtain ⟨a, ha⟩ := List.length_eq_one.mp hlen
    obtain ⟨h1, h2⟩ := instInv_all_run evs a (by rw [ha]; exact List.mem_singleton_self a)
    have htot : SessState.inFlightTotal (SessState.run evs) = a.inFlight := by
      simp [SessState.inFlightTotal, ha]
    constructor
    · rw [htot]; exact h1
    · intro hone
      have hpend : ∀ inst ∈ (SessState.run evs).insts,
          inst.pending = false := by
        intro inst hmem
        rw [ha] at hmem
        rw [List.mem_singleton.mp hmem]
        exact h2 (by rw [htot] at hone; exact hone)
      rw [ticksRun_fixpoint n _ (step_tick_fixpoint _ hpend)]

/-- C3 (code bug): a `predict` call in flight when `handleStopCamera`
runs still applies `setPredictions` when it resolves — the source has
no generation gate — so the cleared `predictions` state is overwritten
by the stale result: after `tick` (dispatch) and `stop` the state is
`[]`, but the stale resolution then installs its list. -/
theorem stale_resolve_after_stop_mutates_predictions :
    (LoopState.run [LoopEvent.tick, LoopEvent.stop]).predictions = [] ∧
    (LoopState.run [LoopEvent.tick, LoopEvent.stop,
        LoopEvent.resolve [⟨"Crack", 9/10⟩]]).predictions
      = [⟨"Crack", 9/10⟩] ∧
    (LoopState.run [LoopEvent.tick, LoopEvent.stop,
        LoopEvent.resolve [⟨"Crack", 9/10⟩]]).predictions ≠ [] := by
  refine ⟨rfl, rfl, ?_⟩
  decide

/-- C4 counterexample: with a configured threshold of exactly `0` and
probability `1/4`, the claim "classified Crack exactly when p > t"
fails — `1/4 > 0` yet the source's `threshold || 0.5` makes the
classification `No Crack`. -/
theorem classify_zero_threshold_counterexample :
    ¬ (((TensorFlowService.classify
        ⟨"model.json", (1, 224, 224, 3), some 0⟩ (1/4)).classification
          = Classification.Crack) ↔ ((1 : ℚ)/4 > 0)) := by
  have hc : (TensorFlowService.classify
      ⟨"model.json", (1, 224, 224, 3), some 0⟩ (1/4)).classification
        = Classification.NoCrack := by
    norm_num [TensorFlowService.classify, jsOrDefault]
  intro h
  rw [hc] at h
  exact Classification.noConfusion (h.mpr (by norm_num))

/-- C4 (amended): for every *non-zero* configured threshold `t`,
`predict`'s decision tail classifies probability `p` as Crack exactly
when `p > t`, reports `probability = p`, and sets `confidence = p` on
Crack and `1 - p` on No Crack (a zero threshold is replaced by the
default `0.5`, see the C10 theorem). -/
theorem classify_nonzero_threshold (url : String) (shape : ℕ × ℕ × ℕ × ℕ)
    (t p : ℚ) (ht : t ≠ 0) :
    ((TensorFlowService.classify ⟨url, shape, some t⟩ p).classification
        = Classification.Crack ↔ p > t) ∧
    (TensorFlowService.classify ⟨url, shape, some t⟩ p).probability = p ∧
    ((TensorFlowService.classify ⟨url, shape, some t⟩ p).classification
        = Classification.Crack →
      (TensorFlowService.classify ⟨url, shape, some t⟩ p).confidence = p) ∧
    ((TensorFlowService.classify ⟨url, shape, some t⟩ p).classification
        = Classification.NoCrack →
      (TensorFlowService.classify ⟨url, shape, some t⟩ p).confidence
        = 1 - p) := by
  have hth : jsOrDefault (some t) (1/2) = t := by simp [jsOrDefault, ht]
  simp only [TensorFlowService.classify, hth]
  by_cases hpt : p > t
  · simp [hpt]
  · simp [hpt]

/-- Witness for the C4 theorem at the spec's example: threshold `1/2`
(non-zero), probability `0.42 = 21/50` → `No Crack` with confidence
`0.58 = 29/50`. -/
theorem classify_nonzero_threshold_witness :
    ((1 : ℚ)/2 ≠ 0) ∧
    (((TensorFlowService.classify
        ⟨"model.json", (1, 224, 224, 3), some (1/2)⟩ (21/50)).classification
          = Classification.Crack ↔ (21 : ℚ)/50 > 1/2) ∧
      (TensorFlowService.classify
        ⟨"model.json", (1, 224, 224, 3), some (1/2)⟩ (21/50)).probability
          = 21/50 ∧
      ((TensorFlowService.classify
        ⟨"model.json", (1, 224, 224, 3), some (1/2)⟩ (21/50)).classification
          = Classification.Crack →
        (TensorFlowService.classify
          ⟨"model.json", (1, 224, 224, 3), some (1/2)⟩ (21/50)).confidence
            = 21/50) ∧
      ((TensorFlowService.classify
        ⟨"model.json", (1, 224, 224, 3), some (1/2)⟩ (21/50)).classification
          = Classification.NoCrack →
        (TensorFlowService.classify
          ⟨"model.json", (1, 224, 224, 3), some (1/2)⟩ (21/50)).confidence
            = 1 - 21/50)) ∧
    (TensorFlowService.classify
      ⟨"model.json", (1, 224, 224, 3), some (1/2)⟩ (21/50)).classification
        = Classification.NoCrack ∧
    (TensorFlowService.classify
      ⟨"model.json", (1, 224, 224, 3), some (1/2)⟩ (21/50)).confidence
        = 29/50 :=
  ⟨by norm_num,
   classify_nonzero_threshold "model.json" (1, 224, 224, 3) (1/2) (21/50)
     (by norm_num),
   by norm_num [TensorFlowService.classify, jsOrDefault],
   by
     norm_num [TensorFlowService.classify, jsOrDefault]
     all_goals decide⟩

/-- C5 counterexample: `CrackDetectionService.isModelLoaded` is already
`true` on a freshly constructed service — before any configuration or
artifact load — because the source returns
`model !== null || !isLoading`. -/
theorem cd_isModelLoaded_true_before_any_load :
    CrackDetectionService.isModelLoaded CDState.init = true ∧
    CDState.init.model = false := by
  decide

/-- C5 (amended): for `TensorFlowService`, `isModelLoaded` is true only
after the model artifact finished loading successfully — every trace
reaching a loaded state contains a successful load completion, and the
configuration was stored by then; `CrackDetectionService.isModelLoaded`,
by contrast, is already true in the initial state (see the
counterexample). -/
theorem tf_isModelLoaded_requires_successful_load (evs : List TFEvent)
    (h : TensorFlowService.isModelLoaded (TFState.run evs) = true) :
    (∃ e ∈ evs, e = TFEvent.finishLoad true) ∧
    (TFState.run evs).config.isSome = true := by
  have hm : (TFState.run evs).model = true := h
  constructor
  · rcases tf_model_source evs TFState.init hm with h0 | hex
    · exact absurd h0 (by simp [TFState.init])
    · exact hex
  · exact (tfInv_foldl evs TFState.init
      ⟨by simp [TFState.init], by simp [TFState.init]⟩).2 hm

/-- Witness for the C5 theorem: the trace that starts a load with a
config and finishes it successfully yields a loaded state, contains the
successful completion, and has the config stored. -/
theorem tf_isModelLoaded_requires_successful_load_witness :
    TensorFlowService.isModelLoaded (TFState.run
      [TFEvent.startLoad ⟨"https://m/model.json", (1, 224, 224, 3), none⟩,
       TFEvent.finishLoad true]) = true ∧
    ((∃ e ∈ [TFEvent.startLoad
          ⟨"https://m/model.json", (1, 224, 224, 3), none⟩,
        TFEvent.finishLoad true], e = TFEvent.finishLoad true) ∧
      (TFState.run
        [TFEvent.startLoad ⟨"https://m/model.json", (1, 224, 224, 3), none⟩,
         TFEvent.finishLoad true]).config.isSome = true) :=
  ⟨by decide, tf_isModelLoaded_requires_successful_load _ (by decide)⟩

/-- C6 (code bug): one `TensorFlowService.predict` call on a fresh
tensor environment leaves the five preprocessing intermediates live —
the `finally` block disposes only `imageTensor` (id 5, the `expandDims`
output) and `predictionTensor` (id 6); the `fromPixels`,
`resizeBilinear`, `toFloat`, `scalar(255)` and `div` tensors
(ids 0–4) leak past the call. -/
theorem predict_leaks_preprocessing_tensors :
    (TensorFlowService.predictTensors ⟨0, []⟩).live = [0, 1, 2, 3, 4] ∧
    (TensorFlowService.predictTensors ⟨0, []⟩).live ≠ [] := by
  refine ⟨rfl, ?_⟩
  decide

/-- C7 counterexample: `setConfig` applied to a config whose required
fields are both empty completes and stores it — no validation, no
`MissingField` failure — though the stored config then never reports
configured. -/
theorem setConfig_accepts_empty_fields :
    (RoboflowService.setConfig ⟨"", "", none⟩ ⟨none⟩).config
      = some ⟨"", "", none⟩ ∧
    RoboflowService.isConfigured
      (RoboflowService.setConfig ⟨"", "", none⟩ ⟨none⟩) = false := by
  decide

/-- C7 (amended): `setConfig` stores the supplied config unconditionally
and never fails (and makes no network call — it is pure storage);
validation lives in `isConfigured`, which reports `true` after
`setConfig` exactly when both required fields (`apiKey`,
`modelEndpoint`) are non-empty — so a config with an empty required
field can never make the backend report itself configured. -/
theorem setConfig_stores_isConfigured_validates (config : RoboflowConfig)
    (s : RoboflowServiceState) :
    (RoboflowService.setConfig config s).config = some config ∧
    (RoboflowService.isConfigured (RoboflowService.setConfig config s) = true ↔
      (config.apiKey ≠ "" ∧ config.modelEndpoint ≠ "")) := by
  constructor
  · rfl
  · simp [RoboflowService.setConfig, RoboflowService.isConfigured]

/-- C8 counterexample: a base URL that already ends with the
conventional filename still gets `/model.json` appended — the source
only inspects the trailing slash, not whether the filename is already
present. -/
theorem resolveModelURL_appends_when_already_present :
    strContains "https://example.com/model.json" "model.json" = true ∧
    TeachableMachineService.resolveModelURL
        ⟨"https://example.com/model.json", none⟩
      = "https://example.com/model.json/model.json" := by
  constructor
  · decide
  · decide

/-- C8 (amended): `loadModel` resolves the model URL to
`{base}model.json` when the base ends with `/` and to `{base}/model.json`
otherwise, and the metadata URL likewise to `metadata.json` unless a
non-empty metadata URL was supplied explicitly, which is used verbatim;
the filenames are appended unconditionally (slash-aware), not only when
absent. -/
theorem resolve_urls_slash_aware (base : String) (meta : Option String) :
    (strEndsWith base "/" = true →
      TeachableMachineService.resolveModelURL ⟨base, meta⟩
        = base ++ "model.json") ∧
    (strEndsWith base "/" = false →
      TeachableMachineService.resolveModelURL ⟨base, meta⟩
        = base ++ "/model.json") ∧
    (strEndsWith base "/" = true →
      TeachableMachineService.resolveMetadataURL ⟨base, none⟩
        = base ++ "metadata.json") ∧
    (strEndsWith base "/" = false →
      TeachableMachineService.resolveMetadataURL ⟨base, none⟩
        = base ++ "/metadata.json") ∧
    (∀ m : String, m ≠ "" →
      TeachableMachineService.resolveMetadataURL ⟨base, some m⟩ = m) := by
  refine ⟨?_, ?_, ?_, ?_, ?_⟩
  · intro h; simp [TeachableMachineService.resolveModelURL, h]
  · intro h; simp [TeachableMachineService.resolveModelURL, h]
  · intro h; simp [TeachableMachineService.resolveMetadataURL, h]
  · intro h; simp [TeachableMachineService.resolveMetadataURL, h]
  · intro m hm; simp [TeachableMachineService.resolveMetadataURL, hm]

lemma stopTracksFrom_get (ts : List MediaTrack) (idxs : List ℕ) :
    ∀ (k i : ℕ) (t : MediaTrack), (k + i) ∈ idxs →
      (stopTracksFrom ts idxs k).get? i = some t → t.stopped = true := by
  induction ts with
  | nil =>
      intro k i t _ hget
      simp [stopTracksFrom] at hget
  | cons hd tl ih =>
      intro k i t hmem hget
      cases i with
      | zero =>
          have hk : k ∈ idxs := by simpa using hmem
          simp only [stopTracksFrom, List.get?] at hget
          rw [if_pos hk] at hget
          have := Option.some.inj hget
          rw [← this]
      | succ i =>
          simp only [stopTracksFrom, List.get?] at hget
          have hmem' : (k + 1) + i ∈ idxs := by
            have : (k + 1) + i = k + (i + 1) := by omega
            rw [this]; exact hmem
          exact ih (k + 1) i t hmem' hget

/-- C9: `stopCamera` is idempotent — a second (or later) consecutive
call changes nothing and does not error — and after any call the stream
reference is `null`, `isActive` is `false`, the video element's
`srcObject` is `null`, and every track the stream referenced has been
stopped (hardware released). -/
theorem stopCamera_idempotent_and_releases (s : CameraState) :
    useCamera.stopCamera (useCamera.stopCamera s) = useCamera.stopCamera s ∧
    (useCamera.stopCamera s).streamTracks = none ∧
    (useCamera.stopCamera s).isActive = false ∧
    (useCamera.stopCamera s).srcObject = false ∧
    (∀ idxs, s.streamTracks = some idxs →
      ∀ i ∈ idxs, ∀ t, (useCamera.stopCamera s).tracks.get? i = some t →
        t.stopped = true) := by
  obtain ⟨tracks, streamTracks, srcObject, isActive⟩ := s
  cases streamTracks with
  | none =>
      refine ⟨rfl, rfl, rfl, rfl, ?_⟩
      intro idxs h
      cases h
  | some idxs =>
      refine ⟨rfl, rfl, rfl, rfl, ?_⟩
      intro idxs' h i hi t hget
      have hidxs : idxs = idxs' := by
        simpa using h
      subst hidxs
      have hget' : (stopTracksFrom tracks idxs 0).get? i = some t := hget
      exact stopTracksFrom_get tracks idxs 0 i t (by simpa using hi) hget'

/-- C10: a configured detection threshold of exactly `0` is silently
replaced by the default `0.5` — `threshold || 0.5` takes the default on
the falsy `0` — both in the runtime adapter's classification decision
(same `CrackPrediction` as with threshold `0.5`, for every probability)
and in the detection-API request's `confidence` query parameter; so a
zero threshold behaves exactly like an absent one. -/
theorem zero_threshold_replaced_by_default (url : String)
    (shape : ℕ × ℕ × ℕ × ℕ) (apiKey modelEndpoint : String) (p : ℚ) :
    TensorFlowService.classify ⟨url, shape, some 0⟩ p
      = TensorFlowService.classify ⟨url, shape, some (1/2)⟩ p ∧
    RoboflowService.requestConfidence ⟨apiKey, modelEndpoint, some 0⟩ = 1/2 ∧
    RoboflowService.requestConfidence ⟨apiKey, modelEndpoint, none⟩ = 1/2 ∧
    jsOrDefault (some 0) (1/2) = jsOrDefault none (1/2) := by
  refine ⟨?_, ?_, rfl, ?_⟩
  · norm_num [TensorFlowService.classify, jsOrDefault]
  · norm_num [RoboflowService.requestConfidence, jsOrDefault]
  · norm_num [jsOrDefault]
